import Mathlib

/-
Verification of the reservation-and-state-transition subsystem of the
hampr machine service (source: src/src/handler/api.ts).

The handler logic (ApiHandler.handleRequestMachine, handleGetMachine,
handleStartMachine, handle) is embedded directly from api.ts.  The backing
table (MachineStateTable), the read-through cache (DataCache), the identity
provider and the device controller are external collaborators whose
implementations are not part of the provided sources; they are modelled from
the specification, which describes the store as a durable key-value store of
machine records (queryable by id and by location, with atomic per-field
updates) and says that the cache owns a copy of the durable record.  Records
are therefore plain values: reading a record and later updating the store
does not retroactively change the value that was read.
-/

namespace HamprMachine

/-- Machine lifecycle status (MachineStatus from database/schema, as listed in
the specification StatusLifecycle section). -/
inductive MachineStatus where
  | AVAILABLE
  | AWAITING_DROPOFF
  | RUNNING
  | ERROR
deriving DecidableEq, Repr

/-- One machine record (MachineStateDocument): stable id, location grouping,
lifecycle status and the nullable job currently holding the machine. -/
structure MachineStateDocument where
  machineId : String
  locationId : String
  status : MachineStatus
  jobId : Option String
deriving DecidableEq, Repr

/-- Response status codes (HttpResponseCode from handler/model). -/
inductive HttpResponseCode where
  | OK
  | NOT_FOUND
  | BAD_REQUEST
  | UNAUTHORIZED
  | HARDWARE_ERROR
  | INTERNAL_SERVER_ERROR
deriving DecidableEq, Repr

/-- Response shape: a status code paired with an optional machine record
(MachineResponseModel); an absent or null machine field is `none`. -/
structure MachineResponseModel where
  statusCode : HttpResponseCode
  machine : Option MachineStateDocument
deriving DecidableEq, Repr

/-- Modelled from the spec: MachineStateTable.listMachinesAtLocation, the
`listAtLocation` capability of the MachineRecordStore collaborator (its
implementation is not in the provided sources).  Returns every record at the
given location, in the listing order of the store. -/
def listMachinesAtLocation (table : List MachineStateDocument)
    (locationId : String) : List MachineStateDocument :=
  table.filter (fun m => decide (m.locationId = locationId))

/-- Modelled from the spec: MachineStateTable.getMachine, the `getById`
capability of the MachineRecordStore collaborator (implementation not in the
provided sources).  Returns the record with the given id, if any. -/
def getMachine (table : List MachineStateDocument)
    (machineId : String) : Option MachineStateDocument :=
  table.find? (fun m => decide (m.machineId = machineId))

/-- Modelled from the spec: MachineStateTable.updateMachineStatus, the atomic
`updateStatus` capability of the MachineRecordStore collaborator
(implementation not in the provided sources). -/
def updateMachineStatus (table : List MachineStateDocument)
    (machineId : String) (status : MachineStatus) : List MachineStateDocument :=
  table.map (fun m =>
    if m.machineId = machineId then { m with status := status } else m)

/-- Modelled from the spec: MachineStateTable.updateMachineJobId, the atomic
`updateJobId` capability of the MachineRecordStore collaborator
(implementation not in the provided sources). -/
def updateMachineJobId (table : List MachineStateDocument)
    (machineId : String) (jobId : String) : List MachineStateDocument :=
  table.map (fun m =>
    if m.machineId = machineId then { m with jobId := some jobId } else m)

/-- The read-through cache contents: machine id mapped to the last-observed
record, newest entry first. -/
abbrev Cache := List (String × MachineStateDocument)

/-- Modelled from the spec: DataCache.get (implementation not in the provided
sources); returns the most recently put value for the key, if any. -/
def cacheGet (cache : Cache) (key : String) : Option MachineStateDocument :=
  (cache.find? (fun e => decide (e.1 = key))).map Prod.snd

/-- Modelled from the spec: DataCache.put (implementation not in the provided
sources); the new entry shadows any older entry for the same key. -/
def cachePut (cache : Cache) (key : String)
    (value : MachineStateDocument) : Cache :=
  (key, value) :: cache

/-- The mutable state the handler touches: the durable table, the
process-wide cache and the log of device-controller invocations (the machine
ids passed to SmartMachineClient.startCycle, in call order). -/
structure SystemState where
  table : List MachineStateDocument
  cache : Cache
  controllerCalls : List String
deriving DecidableEq, Repr

/-- ApiHandler.handleRequestMachine (api.ts lines 42-62): finds the first
AVAILABLE machine at the location, updates its status to AWAITING_DROPOFF and
its job id in the store, then caches and returns the record value it had
fetched before the updates. -/
def handleRequestMachine (s : SystemState) (locationId jobId : String) :
    MachineResponseModel × SystemState :=
  let machines := listMachinesAtLocation s.table locationId
  match machines.find? (fun m => decide (m.status = MachineStatus.AVAILABLE)) with
  | none => ({ statusCode := HttpResponseCode.NOT_FOUND, machine := none }, s)
  | some availableMachine =>
      let table1 := updateMachineStatus s.table availableMachine.machineId
        MachineStatus.AWAITING_DROPOFF
      let table2 := updateMachineJobId table1 availableMachine.machineId jobId
      let cache1 := cachePut s.cache availableMachine.machineId availableMachine
      ({ statusCode := HttpResponseCode.OK, machine := some availableMachine },
       { s with table := table2, cache := cache1 })

/-- ApiHandler.handleGetMachine (api.ts lines 70-95): cache hit returns the
cached record; on a miss the store is consulted, a found record is written
through to the cache, and an absent record yields NOT_FOUND. -/
def handleGetMachine (s : SystemState) (machineId : String) :
    MachineResponseModel × SystemState :=
  match cacheGet s.cache machineId with
  | some cachedMachine =>
      ({ statusCode := HttpResponseCode.OK, machine := some cachedMachine }, s)
  | none =>
      match getMachine s.table machineId with
      | none => ({ statusCode := HttpResponseCode.NOT_FOUND, machine := none }, s)
      | some machine =>
          ({ statusCode := HttpResponseCode.OK, machine := some machine },
           { s with cache := cachePut s.cache machineId machine })

/-- ApiHandler.handleStartMachine (api.ts lines 104-152).  `deviceOk` models
the outcome of the external SmartMachineClient.startCycle call: `true` when
the command returns normally, `false` when it throws.  The invocation is
recorded in `controllerCalls` in both cases, exactly when the call is made. -/
def handleStartMachine (deviceOk : Bool) (s : SystemState) (machineId : String) :
    MachineResponseModel × SystemState :=
  match getMachine s.table machineId with
  | none => ({ statusCode := HttpResponseCode.NOT_FOUND, machine := none }, s)
  | some machine =>
    if machine.status ≠ MachineStatus.AWAITING_DROPOFF then
      ({ statusCode := HttpResponseCode.BAD_REQUEST, machine := some machine }, s)
    else
      let s1 := { s with controllerCalls := s.controllerCalls ++ [machineId] }
      if deviceOk then
        let table1 := updateMachineStatus s1.table machineId MachineStatus.RUNNING
        match getMachine table1 machineId with
        | none =>
            ({ statusCode := HttpResponseCode.INTERNAL_SERVER_ERROR, machine := none },
             { s1 with table := table1 })
        | some updatedMachine =>
            ({ statusCode := HttpResponseCode.OK, machine := some updatedMachine },
             { s1 with table := table1,
                       cache := cachePut s1.cache machineId updatedMachine })
      else
        let table1 := updateMachineStatus s1.table machineId MachineStatus.ERROR
        match getMachine table1 machineId with
        | none =>
            ({ statusCode := HttpResponseCode.INTERNAL_SERVER_ERROR, machine := none },
             { s1 with table := table1 })
        | some errorMachine =>
            ({ statusCode := HttpResponseCode.HARDWARE_ERROR, machine := some errorMachine },
             { s1 with table := table1,
                       cache := cachePut s1.cache machineId errorMachine })

/-- Characters accepted by the route-capture pattern [a-zA-Z0-9-]. -/
def isMachineIdChar (c : Char) : Bool :=
  c.isAlphanum || c == '-'

/-- The GET route pattern of api.ts line 167: the path matches
/machine/{id} exactly when it starts with /machine/ and the remainder is a
nonempty run of id characters; the captured id is that remainder. -/
def matchGetMachine (path : String) : Option String :=
  if path.startsWith "/machine/" then
    let rest := path.drop 9
    if rest.length != 0 && rest.all isMachineIdChar then some rest else none
  else none

/-- The POST route pattern of api.ts line 174: the path matches
/machine/{id}/start exactly when it starts with /machine/, ends with /start,
and the middle is a nonempty run of id characters; the captured id is that
middle. -/
def matchStartMachine (path : String) : Option String :=
  if path.startsWith "/machine/" && path.endsWith "/start" then
    let rest := (path.drop 9).dropRight 6
    if rest.length != 0 && rest.all isMachineIdChar then some rest else none
  else none

/-- An incoming request (RequestModel plus the body fields the reservation
route reads after its cast). -/
structure RequestModel where
  token : String
  method : String
  path : String
  locationId : String
  jobId : String
deriving DecidableEq, Repr

/-- ApiHandler.handle (api.ts lines 160-182).  `validateToken` models the
identity provider; the thrown unauthorized error of checkToken is modelled as
`Except.error ()`.  Routing follows the source order: the reservation route,
then the GET route, then the start route, then the fall-through response. -/
def handle (validateToken : String → Bool) (deviceOk : Bool)
    (s : SystemState) (request : RequestModel) :
    Except Unit (MachineResponseModel × SystemState) :=
  if !(validateToken request.token) then Except.error ()
  else if request.method = "POST" ∧ request.path = "/machine/request" then
    Except.ok (handleRequestMachine s request.locationId request.jobId)
  else
    match (if request.method = "GET" then matchGetMachine request.path else none) with
    | some machineId => Except.ok (handleGetMachine s machineId)
    | none =>
      match (if request.method = "POST" then matchStartMachine request.path else none) with
      | some machineId => Except.ok (handleStartMachine deviceOk s machineId)
      | none =>
          Except.ok
            ({ statusCode := HttpResponseCode.INTERNAL_SERVER_ERROR, machine := none }, s)

/-- Scenario machine m1: AVAILABLE at location L1. -/
def m1 : MachineStateDocument :=
  { machineId := "m1", locationId := "L1",
    status := MachineStatus.AVAILABLE, jobId := none }

/-- Scenario machine m2: RUNNING at location L1. -/
def m2 : MachineStateDocument :=
  { machineId := "m2", locationId := "L1",
    status := MachineStatus.RUNNING, jobId := some "j0" }

/-- Scenario machine m3: AWAITING_DROPOFF at location L1, held by job j3. -/
def m3 : MachineStateDocument :=
  { machineId := "m3", locationId := "L1",
    status := MachineStatus.AWAITING_DROPOFF, jobId := some "j3" }

/-- The Scenario A starting state: machines m1 and m2 at L1, empty cache, no
controller calls yet. -/
def s0 : SystemState :=
  { table := [m1, m2], cache := [], controllerCalls := [] }

/-- A starting state whose only machine, m3, is awaiting drop-off. -/
def s3 : SystemState :=
  { table := [m3], cache := [], controllerCalls := [] }

/-- The store invariant of the data model: an AVAILABLE machine carries no
job binding. -/
def storeInvariant (table : List MachineStateDocument) : Prop :=
  ∀ m ∈ table, m.status = MachineStatus.AVAILABLE → m.jobId = none

instance (table : List MachineStateDocument) : Decidable (storeInvariant table) := by
  unfold storeInvariant
  infer_instance

/-- Every record of the table after the Reserve double update arises from a
record of the original table, rewritten only when its id is the targeted
one. -/
theorem mem_update_update {t : List MachineStateDocument} {id job : String}
    {st : MachineStatus} {m : MachineStateDocument}
    (hm : m ∈ updateMachineJobId (updateMachineStatus t id st) id job) :
    ∃ m0 ∈ t, m = if m0.machineId = id
      then { m0 with status := st, jobId := some job } else m0 := by
  simp only [updateMachineJobId, updateMachineStatus, List.map_map,
    List.mem_map, Function.comp] at hm
  obtain ⟨m0, hm0, rfl⟩ := hm
  refine ⟨m0, hm0, ?_⟩
  by_cases h : m0.machineId = id <;> simp [h]

/-- Reading back the updated id after updateMachineStatus yields the old
record with only its status rewritten. -/
theorem getMachine_updateMachineStatus (table : List MachineStateDocument)
    (machineId : String) (status : MachineStatus) :
    getMachine (updateMachineStatus table machineId status) machineId =
      (getMachine table machineId).map (fun m => { m with status := status }) := by
  induction table with
  | nil => rfl
  | cons m rest ih =>
      by_cases h : m.machineId = machineId
      · simp [getMachine, updateMachineStatus, h]
      · simpa [getMachine, updateMachineStatus, h] using ih

/-- C1: on the Scenario A store, Reserve(L1, j1) succeeds but the record it
returns and writes into the cache is the pre-update value of m1 (status
AVAILABLE, jobId null), while the store holds the updated record (status
AWAITING_DROPOFF, jobId j1).  This contradicts the claim that the cached and
returned record is the updated one. -/
theorem reserve_returns_and_caches_preupdate_record :
    (handleRequestMachine s0 "L1" "j1").1 =
      { statusCode := HttpResponseCode.OK, machine := some m1 } ∧
    cacheGet (handleRequestMachine s0 "L1" "j1").2.cache "m1" = some m1 ∧
    m1.status = MachineStatus.AVAILABLE ∧
    m1.jobId = none ∧
    getMachine (handleRequestMachine s0 "L1" "j1").2.table "m1" =
      some { m1 with status := MachineStatus.AWAITING_DROPOFF,
                     jobId := some "j1" } := by
  refine ⟨rfl, rfl, rfl, rfl, rfl⟩

/-- C2: a GetState(m1) issued immediately after Reserve(L1, j1) on the
Scenario A store hits the cache entry Reserve wrote and returns the stale
pre-transition record (status AVAILABLE), while the status just written to
the store is AWAITING_DROPOFF.  This contradicts the claim that GetState
after a Reserve returns the just-written status. -/
theorem getState_after_reserve_returns_stale_status :
    (handleGetMachine (handleRequestMachine s0 "L1" "j1").2 "m1").1 =
      { statusCode := HttpResponseCode.OK, machine := some m1 } ∧
    m1.status = MachineStatus.AVAILABLE ∧
    getMachine (handleRequestMachine s0 "L1" "j1").2.table "m1" =
      some { m1 with status := MachineStatus.AWAITING_DROPOFF,
                     jobId := some "j1" } := by
  refine ⟨rfl, rfl, rfl⟩

/-- C3: Reserve preserves the invariant that an AVAILABLE machine has no job
binding: if the invariant holds of the store before the call, then after the
call every machine at the targeted location with status AVAILABLE has
jobId null. -/
theorem reserve_preserves_available_implies_no_job (s : SystemState)
    (locationId jobId : String) (hinv : storeInvariant s.table) :
    ∀ m ∈ listMachinesAtLocation
        (handleRequestMachine s locationId jobId).2.table locationId,
      m.status = MachineStatus.AVAILABLE → m.jobId = none := by
  intro m hm hav
  have hm2 : m ∈ (handleRequestMachine s locationId jobId).2.table :=
    List.mem_of_mem_filter hm
  simp only [handleRequestMachine] at hm2
  split at hm2
  · exact hinv m hm2 hav
  · rename_i availableMachine hfind
    obtain ⟨m0, hm0, heq⟩ := mem_update_update hm2
    by_cases h : m0.machineId = availableMachine.machineId
    · rw [heq] at hav
      simp [h] at hav
    · rw [heq] at hav ⊢
      simp only [h, if_false] at hav ⊢
      exact hinv m0 hm0 hav

/-- C3 witness: on the Scenario A store the invariant holds beforehand, and
the conclusion holds of the state Reserve(L1, j1) produces. -/
theorem reserve_preserves_available_implies_no_job_witness :
    storeInvariant s0.table ∧
    ∀ m ∈ listMachinesAtLocation
        (handleRequestMachine s0 "L1" "j1").2.table "L1",
      m.status = MachineStatus.AVAILABLE → m.jobId = none :=
  ⟨by decide, reserve_preserves_available_implies_no_job s0 "L1" "j1" (by decide)⟩

/-- C4: StartCycle on an existing machine whose status is not
AWAITING_DROPOFF returns BAD_REQUEST carrying the current record and leaves
the whole state unchanged: the device controller is not invoked
(controllerCalls unchanged), no status is written to the store and no cache
write occurs. -/
theorem startCycle_invalid_state_no_effect (deviceOk : Bool) (s : SystemState)
    (machineId : String) (m : MachineStateDocument)
    (hget : getMachine s.table machineId = some m)
    (hst : m.status ≠ MachineStatus.AWAITING_DROPOFF) :
    handleStartMachine deviceOk s machineId =
      ({ statusCode := HttpResponseCode.BAD_REQUEST, machine := some m }, s) := by
  unfold handleStartMachine
  rw [hget]
  simp [hst]

/-- C4 witness: StartCycle(m2) on the Scenario A store, where m2 is RUNNING,
returns BAD_REQUEST with m2 and the state is unchanged. -/
theorem startCycle_invalid_state_no_effect_witness :
    getMachine s0.table "m2" = some m2 ∧
    m2.status ≠ MachineStatus.AWAITING_DROPOFF ∧
    handleStartMachine true s0 "m2" =
      ({ statusCode := HttpResponseCode.BAD_REQUEST, machine := some m2 }, s0) :=
  ⟨by decide, by decide,
    startCycle_invalid_state_no_effect true s0 "m2" m2 (by decide) (by decide)⟩

/-- C5: StartCycle on an existing AWAITING_DROPOFF machine whose device-start
command fails writes status ERROR to the store, re-reads the record, writes
it through to the cache, records the controller invocation, and returns
HARDWARE_ERROR carrying the error-state record.  In the modelled store the
re-read of an existing machine after an update cannot come back empty, so
the Internal fallback branch of the source is unreachable here. -/
theorem startCycle_device_failure_error_path (s : SystemState)
    (machineId : String) (m : MachineStateDocument)
    (hget : getMachine s.table machineId = some m)
    (hst : m.status = MachineStatus.AWAITING_DROPOFF) :
    handleStartMachine false s machineId =
      ({ statusCode := HttpResponseCode.HARDWARE_ERROR,
         machine := some { m with status := MachineStatus.ERROR } },
       { table := updateMachineStatus s.table machineId MachineStatus.ERROR,
         cache := cachePut s.cache machineId { m with status := MachineStatus.ERROR },
         controllerCalls := s.controllerCalls ++ [machineId] }) := by
  unfold handleStartMachine
  rw [hget]
  simp [hst, getMachine_updateMachineStatus, hget]

/-- C5 witness: StartCycle(m3) with a failing device on the awaiting-dropoff
store produces the HARDWARE_ERROR outcome with the ERROR-state record. -/
theorem startCycle_device_failure_error_path_witness :
    getMachine s3.table "m3" = some m3 ∧
    m3.status = MachineStatus.AWAITING_DROPOFF ∧
    handleStartMachine false s3 "m3" =
      ({ statusCode := HttpResponseCode.HARDWARE_ERROR,
         machine := some { m3 with status := MachineStatus.ERROR } },
       { table := updateMachineStatus s3.table "m3" MachineStatus.ERROR,
         cache := cachePut s3.cache "m3" { m3 with status := MachineStatus.ERROR },
         controllerCalls := s3.controllerCalls ++ ["m3"] }) :=
  ⟨by decide, by decide,
    startCycle_device_failure_error_path s3 "m3" m3 (by decide) (by decide)⟩

/-- C6: StartCycle on an existing AWAITING_DROPOFF machine whose device-start
command succeeds writes status RUNNING to the store, re-reads the record,
writes it through to the cache, records the controller invocation, and
returns OK with the updated record.  In the modelled store the re-read of an
existing machine after an update cannot come back empty, so the Internal
fallback branch of the source is unreachable here. -/
theorem startCycle_device_success_running_path (s : SystemState)
    (machineId : String) (m : MachineStateDocument)
    (hget : getMachine s.table machineId = some m)
    (hst : m.status = MachineStatus.AWAITING_DROPOFF) :
    handleStartMachine true s machineId =
      ({ statusCode := HttpResponseCode.OK,
         machine := some { m with status := MachineStatus.RUNNING } },
       { table := updateMachineStatus s.table machineId MachineStatus.RUNNING,
         cache := cachePut s.cache machineId { m with status := MachineStatus.RUNNING },
         controllerCalls := s.controllerCalls ++ [machineId] }) := by
  unfold handleStartMachine
  rw [hget]
  simp [hst, getMachine_updateMachineStatus, hget]

/-- C6 witness: StartCycle(m3) with a succeeding device on the
awaiting-dropoff store produces the OK outcome with the RUNNING record. -/
theorem startCycle_device_success_running_path_witness :
    getMachine s3.table "m3" = some m3 ∧
    m3.status = MachineStatus.AWAITING_DROPOFF ∧
    handleStartMachine true s3 "m3" =
      ({ statusCode := HttpResponseCode.OK,
         machine := some { m3 with status := MachineStatus.RUNNING } },
       { table := updateMachineStatus s3.table "m3" MachineStatus.RUNNING,
         cache := cachePut s3.cache "m3" { m3 with status := MachineStatus.RUNNING },
         controllerCalls := s3.controllerCalls ++ ["m3"] }) :=
  ⟨by decide, by decide,
    startCycle_device_success_running_path s3 "m3" m3 (by decide) (by decide)⟩

/-- C7: when no record at the location is AVAILABLE, Reserve returns
NOT_FOUND with no machine, and the state is returned unchanged: no store
update and no cache write occur. -/
theorem reserve_no_candidate_not_found (s : SystemState)
    (locationId jobId : String)
    (hnone : ∀ m ∈ listMachinesAtLocation s.table locationId,
      m.status ≠ MachineStatus.AVAILABLE) :
    handleRequestMachine s locationId jobId =
      ({ statusCode := HttpResponseCode.NOT_FOUND, machine := none }, s) := by
  have hfind : (listMachinesAtLocation s.table locationId).find?
      (fun m => decide (m.status = MachineStatus.AVAILABLE)) = none := by
    rw [List.find?_eq_none]
    intro m hm
    simpa using hnone m hm
  simp only [handleRequestMachine, hfind]

/-- C7 witness: on the store holding only the AWAITING_DROPOFF machine m3,
Reserve at L1 finds no AVAILABLE candidate and returns NOT_FOUND with the
state unchanged. -/
theorem reserve_no_candidate_not_found_witness :
    (∀ m ∈ listMachinesAtLocation s3.table "L1",
      m.status ≠ MachineStatus.AVAILABLE) ∧
    handleRequestMachine s3 "L1" "j9" =
      ({ statusCode := HttpResponseCode.NOT_FOUND, machine := none }, s3) :=
  ⟨by decide, reserve_no_candidate_not_found s3 "L1" "j9" (by decide)⟩

/-- A successful find? splits its list into a prefix on which the predicate
is false, the found element, and a suffix. -/
theorem find?_eq_some_decomposition {α : Type} (p : α → Bool) (l : List α)
    (a : α) (h : l.find? p = some a) :
    ∃ l1 l2, l = l1 ++ a :: l2 ∧ ∀ x ∈ l1, p x = false := by
  induction l with
  | nil => simp at h
  | cons b rest ih =>
      by_cases hb : p b
      · rw [List.find?_cons_of_pos _ hb] at h
        obtain rfl := Option.some.inj h
        exact ⟨[], rest, rfl, by simp⟩
      · rw [List.find?_cons_of_neg _ hb] at h
        obtain ⟨l1, l2, hdec, hl1⟩ := ih h
        refine ⟨b :: l1, l2, by rw [hdec, List.cons_append], ?_⟩
        intro x hx
        rcases List.mem_cons.mp hx with rfl | hx2
        · simpa using hb
        · exact hl1 x hx2

/-- C8: when some record at the location is AVAILABLE, the machine Reserve
returns is AVAILABLE and is the first such record in the listing order of the
store for that location: the listing splits into a prefix with no AVAILABLE
record, then the chosen record. -/
theorem reserve_selects_first_available (s : SystemState)
    (locationId jobId : String) (m : MachineStateDocument)
    (hm : m ∈ listMachinesAtLocation s.table locationId)
    (hav : m.status = MachineStatus.AVAILABLE) :
    ∃ chosen l1 l2,
      (handleRequestMachine s locationId jobId).1.machine = some chosen ∧
      chosen.status = MachineStatus.AVAILABLE ∧
      listMachinesAtLocation s.table locationId = l1 ++ chosen :: l2 ∧
      ∀ x ∈ l1, x.status ≠ MachineStatus.AVAILABLE := by
  have hsome : ((listMachinesAtLocation s.table locationId).find?
      (fun x => decide (x.status = MachineStatus.AVAILABLE))).isSome := by
    rw [List.find?_isSome]
    exact ⟨m, hm, by simpa using hav⟩
  obtain ⟨chosen, hfind⟩ := Option.isSome_iff_exists.mp hsome
  have hchosen : chosen.status = MachineStatus.AVAILABLE := by
    simpa using List.find?_some hfind
  obtain ⟨l1, l2, hdec, hl1⟩ := find?_eq_some_decomposition _ _ _ hfind
  refine ⟨chosen, l1, l2, ?_, hchosen, hdec, ?_⟩
  · simp only [handleRequestMachine, hfind]
  · intro x hx
    simpa using hl1 x hx

/-- C8 witness: on the Scenario A store, m1 is an AVAILABLE machine at L1,
and Reserve(L1, j1) picks the first AVAILABLE record of the listing. -/
theorem reserve_selects_first_available_witness :
    m1 ∈ listMachinesAtLocation s0.table "L1" ∧
    m1.status = MachineStatus.AVAILABLE ∧
    ∃ chosen l1 l2,
      (handleRequestMachine s0 "L1" "j1").1.machine = some chosen ∧
      chosen.status = MachineStatus.AVAILABLE ∧
      listMachinesAtLocation s0.table "L1" = l1 ++ chosen :: l2 ∧
      ∀ x ∈ l1, x.status ≠ MachineStatus.AVAILABLE :=
  ⟨by decide, by decide,
    reserve_selects_first_available s0 "L1" "j1" m1 (by decide) (by decide)⟩

/-- C9: on a cache miss, GetState consults the store: when the machine is
absent from the store too it returns NOT_FOUND and leaves the state
(including the cache) unchanged, so no entry is created; when the store has
the record, the record is written through to the cache (a subsequent lookup
of the key yields it) and returned with OK. -/
theorem getState_cache_miss_reads_store (s : SystemState) (machineId : String)
    (hmiss : cacheGet s.cache machineId = none) :
    (getMachine s.table machineId = none →
      handleGetMachine s machineId =
        ({ statusCode := HttpResponseCode.NOT_FOUND, machine := none }, s)) ∧
    (∀ m, getMachine s.table machineId = some m →
      handleGetMachine s machineId =
        ({ statusCode := HttpResponseCode.OK, machine := some m },
         { s with cache := cachePut s.cache machineId m }) ∧
      cacheGet (cachePut s.cache machineId m) machineId = some m) := by
  constructor
  · intro habs
    unfold handleGetMachine
    rw [hmiss, habs]
  · intro m hgot
    constructor
    · unfold handleGetMachine
      rw [hmiss, hgot]
    · simp [cacheGet, cachePut]

/-- C9 witness: on the Scenario A store with its empty cache, GetState of the
unknown id zz misses the cache, misses the store, and returns NOT_FOUND with
the state unchanged. -/
theorem getState_cache_miss_reads_store_witness :
    cacheGet s0.cache "zz" = none ∧
    getMachine s0.table "zz" = none ∧
    handleGetMachine s0 "zz" =
      ({ statusCode := HttpResponseCode.NOT_FOUND, machine := none }, s0) :=
  ⟨by decide, by decide,
    (getState_cache_miss_reads_store s0 "zz" (by decide)).1 (by decide)⟩

/-- C10: with a valid token, a request whose method and path match none of
the three routes falls through to the INTERNAL_SERVER_ERROR response with a
null machine, and the state (store and cache) is returned unchanged. -/
theorem handle_unrouted_internal_error (validateToken : String → Bool)
    (deviceOk : Bool) (s : SystemState) (request : RequestModel)
    (htok : validateToken request.token = true)
    (h1 : ¬(request.method = "POST" ∧ request.path = "/machine/request"))
    (h2 : ¬(request.method = "GET" ∧ (matchGetMachine request.path).isSome))
    (h3 : ¬(request.method = "POST" ∧ (matchStartMachine request.path).isSome)) :
    handle validateToken deviceOk s request =
      Except.ok
        ({ statusCode := HttpResponseCode.INTERNAL_SERVER_ERROR, machine := none },
         s) := by
  have hget :
      (if request.method = "GET" then matchGetMachine request.path else none)
        = none := by
    by_cases hg : request.method = "GET"
    · simp only [hg, if_true]
      rcases hopt : matchGetMachine request.path with _ | v
      · rfl
      · exact absurd ⟨hg, by rw [hopt]; rfl⟩ h2
    · simp [hg]
  have hstart :
      (if request.method = "POST" then matchStartMachine request.path else none)
        = none := by
    by_cases hp : request.method = "POST"
    · simp only [hp, if_true]
      rcases hopt : matchStartMachine request.path with _ | v
      · rfl
      · exact absurd ⟨hp, by rw [hopt]; rfl⟩ h3
    · simp [hp]
  simp only [handle, htok, Bool.not_true, Bool.false_eq_true, if_false, h1,
    hget, hstart]

/-- A request with a valid token that no route accepts: method DELETE and a
path outside the machine namespace. -/
def unroutedRequest : RequestModel :=
  { token := "t", method := "DELETE", path := "/nope",
    locationId := "", jobId := "" }

/-- C10 witness: the unrouted DELETE request with an always-valid token
yields INTERNAL_SERVER_ERROR with no machine and the Scenario A state
unchanged. -/
theorem handle_unrouted_internal_error_witness :
    (fun _ : String => true) unroutedRequest.token = true ∧
    ¬(unroutedRequest.method = "POST" ∧
      unroutedRequest.path = "/machine/request") ∧
    ¬(unroutedRequest.method = "GET" ∧
      (matchGetMachine unroutedRequest.path).isSome) ∧
    ¬(unroutedRequest.method = "POST" ∧
      (matchStartMachine unroutedRequest.path).isSome) ∧
    handle (fun _ => true) true s0 unroutedRequest =
      Except.ok
        ({ statusCode := HttpResponseCode.INTERNAL_SERVER_ERROR, machine := none },
         s0) :=
  ⟨rfl, by decide, by decide, by decide,
    handle_unrouted_internal_error (fun _ => true) true s0 unroutedRequest rfl
      (by decide) (by decide) (by decide)⟩

end HamprMachine
